import Mathlib

set_option maxHeartbeats 1000000

/-!
Verification of the suspension-based effect-interpreter core.

Python generators are embedded as finite trees: a program either terminates
(`ret`, modelling a `StopIteration` with a value), raises an exception
(`crash`, modelling a bare `raise`), or yields a suspension request together
with a continuation that consumes the value sent back by the driver.
Dynamic (duck-typed) Python values are embedded in the single type `Val`.
Each source file's vocabulary gets its own program type; the interpreters
are translated loop-by-loop from the corresponding `run_*` functions.
-/

/-- Dynamic values flowing through the embedded programs: Python `None`,
integers, strings and lists. -/
inductive Val : Type where
  | vnone : Val
  | vint (n : Int) : Val
  | vstr (s : String) : Val
  | vlist (vs : List Val) : Val

/-- Terminal outcome of driving a program: the driver's return value is either
the program's completion value, a `StopFromError` carrying the error (rendered
`halted`), or an uncaught exception (`crashed`). -/
inductive RunResult : Type where
  | completed (v : Val) : RunResult
  | halted (e : Val) : RunResult
  | crashed : RunResult

/-- Whether a terminal outcome is an uncaught exception. -/
def isCrashed : RunResult → Bool
  | .crashed => true
  | _ => false

/-- First `StopFromError` in a list of sub-results, mirroring the scan
`for sr in sub_results: if isinstance(sr, StopFromError): return sr`. -/
def firstHalt : List RunResult → Option Val
  | [] => none
  | .halted e :: _ => some e
  | _ :: rs => firstHalt rs

/-- The completion values of a list of sub-results.  On the interpreter path
where it is used, the scan has already established that no entry is a
`StopFromError` (and a crashed entry would have raised), so this equals the
raw `sub_results` list of the source. -/
def completedValues : List RunResult → List Val
  | [] => []
  | .completed v :: rs => v :: completedValues rs
  | _ :: rs => completedValues rs

/-- Outcome of servicing a `Gather` as a function of the list of terminal
results of all sub-programs: a crash anywhere propagates, otherwise the
first-observed halt is reported, otherwise the ordered list of completion
values is returned.  Both `z0_io_basic_blocking.run_single_command` and
`41_io_basic_async.run_single_command` factor through this function of the
full results list. -/
def gatherOutcome (rs : List RunResult) : RunResult :=
  if rs.any isCrashed then .crashed
  else
    match firstHalt rs with
    | some e => .halted e
    | none => .completed (.vlist (completedValues rs))

namespace Blocking

/-!
Embedding of `z0_io_basic_blocking.py`: suspensions are `StopFromError` and
`Gather`; the send channel carries plain values (there is no `ExitInPlace`
in this file).
-/

/-- A program of `z0_io_basic_blocking.py`: a generator yielding
`StopFromError` or `Gather` requests, resumed with plain values. -/
inductive BProg : Type where
  | ret (v : Val) : BProg
  | crash : BProg
  | yieldStop (e : Val) (k : Val → BProg) : BProg
  | yieldGather (subs : List BProg) (k : Val → BProg) : BProg

/-- `halt_with_error`: yield `StopFromError(error)`, then an unreachable
`raise`. -/
def halt_with_error (e : Val) : BProg := .yieldStop e (fun _ => .crash)

/-- `pure`: return the value immediately, no suspension. -/
def pure (v : Val) : BProg := .ret v

/-- `join`: yield `Gather(sub_tasks)` and return whatever the driver sends
back. -/
def join (subs : List BProg) : BProg := .yieldGather subs (fun r => .ret r)

/-- `recover_with` / `_RecoverWith` of `z0_io_basic_blocking.py` as a tree
transformation: each step of the wrapper steps the decorated generator; a
yielded `StopFromError` is turned into a `StopIteration` carrying
`recover(error)`, every other yield is passed through with the wrapper still
in place; sub-programs inside a `Gather` request are not transformed. -/
def recover_with : BProg → (Val → Val) → BProg
  | .ret v, _ => .ret v
  | .crash, _ => .crash
  | .yieldStop e _, f => .ret (f e)
  | .yieldGather subs k, f => .yieldGather subs (fun s => recover_with (k s) f)

mutual

/-- `run_io` of `z0_io_basic_blocking.py`: drive the program; a yielded
`StopFromError` is returned as-is to the caller (the generator is closed,
nothing is sent back to it); a `Gather` runs every sub-program to its
terminal result, then returns the first observed `StopFromError` raw, or
sends the list of results back into the program. -/
def run_io : BProg → RunResult
  | .ret v => .completed v
  | .crash => .crashed
  | .yieldStop e _ => .halted e
  | .yieldGather subs k =>
      let rs := runList subs
      if rs.any isCrashed then .crashed
      else
        match firstHalt rs with
        | some e => .halted e
        | none => run_io (k (.vlist (completedValues rs)))

/-- The list comprehension `[run_io(st) for st in sub_commands]`. -/
def runList : List BProg → List RunResult
  | [] => []
  | p :: ps => run_io p :: runList ps

end

end Blocking

namespace Async

/-!
Embedding of `41_io_basic_async.py`: suspensions are `StopFromError`,
`Sleep` and `Gather`; the send channel carries either a plain value or an
`ExitInPlace(error)` injected by the interpreter.
-/

/-- The send channel `IOSend = Any | ExitInPlace`. -/
inductive ASend : Type where
  | val (v : Val) : ASend
  | exit (e : Val) : ASend

/-- A program of `41_io_basic_async.py`. -/
inductive AProg : Type where
  | ret (v : Val) : AProg
  | crash : AProg
  | yieldStop (e : Val) (k : ASend → AProg) : AProg
  | yieldSleep (d : Nat) (k : ASend → AProg) : AProg
  | yieldGather (subs : List AProg) (k : ASend → AProg) : AProg

/-- `halt_with_error`: yield `StopFromError(error)`, then an unreachable
`raise`. -/
def halt_with_error (e : Val) : AProg := .yieldStop e (fun _ => .crash)

/-- `pure`: return the value immediately, no suspension. -/
def pure (v : Val) : AProg := .ret v

/-- `sleep`: yield `Sleep(delay)`, then return `None`. -/
def sleep (d : Nat) : AProg := .yieldSleep d (fun _ => .ret .vnone)

/-- `gather`: yield `Gather(sub_tasks)`; if the driver sends back an
`ExitInPlace(error)`, delegate to `halt_with_error(error)` (converting the
reply into a proper `StopFromError` suspension, followed by the unreachable
`raise`); otherwise return the sent value. -/
def gather (subs : List AProg) : AProg :=
  .yieldGather subs (fun r =>
    match r with
    | .exit e => .yieldStop e (fun _ => .crash)
    | .val v => .ret v)

/-- `recover_with` / `_RecoverWith` of `41_io_basic_async.py` as a tree
transformation: a yielded `StopFromError` becomes a `StopIteration` carrying
`recover(error)`; `Sleep` and `Gather` yields pass through unchanged with the
wrapper still in place; sub-programs inside a `Gather` request are not
transformed. -/
def recover_with : AProg → (Val → Val) → AProg
  | .ret v, _ => .ret v
  | .crash, _ => .crash
  | .yieldStop e _, f => .ret (f e)
  | .yieldSleep d k, f => .yieldSleep d (fun s => recover_with (k s) f)
  | .yieldGather subs k, f => .yieldGather subs (fun s => recover_with (k s) f)

/-- Delegation (`yield from p`, then continue with the returned value):
every suspension of `p` is forwarded verbatim, the driver's replies go to
`p`'s own continuations, and when `p` returns, control proceeds with `f`
applied to the returned value. -/
def bind : AProg → (Val → AProg) → AProg
  | .ret v, f => f v
  | .crash, _ => .crash
  | .yieldStop e k, f => .yieldStop e (fun s => bind (k s) f)
  | .yieldSleep d k, f => .yieldSleep d (fun s => bind (k s) f)
  | .yieldGather subs k, f => .yieldGather subs (fun s => bind (k s) f)

mutual

/-- `run_io` of `41_io_basic_async.py`: drive the program; a yielded
`StopFromError` is returned as-is; `Sleep` is serviced by the event loop and
resumes with `None`; `Gather` awaits `asyncio.gather` over all sub-programs
(collecting their terminal results in original list order, an interleaving
of the independent sub-drives cannot change any individual result since the
sub-programs share no state, and a raised exception propagates), then sends
`ExitInPlace(first observed error)` back into the program, or the list of
results when no sub-program halted. -/
def run_io : AProg → RunResult
  | .ret v => .completed v
  | .crash => .crashed
  | .yieldStop e _ => .halted e
  | .yieldSleep _ k => run_io (k (.val .vnone))
  | .yieldGather subs k =>
      let rs := runList subs
      if rs.any isCrashed then .crashed
      else
        match firstHalt rs with
        | some e => run_io (k (.exit e))
        | none => run_io (k (.val (.vlist (completedValues rs))))

/-- The sub-drives `[run_io(st) for st in sub_tasks]` awaited by
`asyncio.gather`, which returns their results in input order. -/
def runList : List AProg → List RunResult
  | [] => []
  | p :: ps => run_io p :: runList ps

end

end Async

namespace EitherM

/-!
Embedding of `30_either_basic.py` and `31_either_recover_with_either.py`
(the two files define the identical `Either` type, basis operations,
`_RecoverWith` and `run_either`; `31` adds `_RecoverWithEither`).
The only suspension is `StopFromError`.
-/

/-- An `Either[E, A]` program: a generator whose only suspension request is
`StopFromError`. -/
inductive EProg : Type where
  | ret (v : Val) : EProg
  | crash : EProg
  | yieldStop (e : Val) (k : Val → EProg) : EProg

/-- `halt_with_error`: yield `StopFromError(error)`, then an unreachable
`raise`. -/
def halt_with_error (e : Val) : EProg := .yieldStop e (fun _ => .crash)

/-- `pure`: return the value immediately, no suspension. -/
def pure (v : Val) : EProg := .ret v

/-- Delegation (`yield from p`, then continue with the returned value):
suspensions of `p` are forwarded verbatim and replies go to `p`'s own
continuations; when `p` returns, control proceeds with `f` applied to the
returned value. -/
def bind : EProg → (Val → EProg) → EProg
  | .ret v, f => f v
  | .crash, _ => .crash
  | .yieldStop e k, f => .yieldStop e (fun s => bind (k s) f)

/-- `recover_with` / `_RecoverWith` of `30_either_basic.py` as a tree
transformation: each step of the wrapper steps the decorated generator; a
yielded `StopFromError` is turned into a `StopIteration` carrying
`recover(error)`; any other outcome of the step passes through. -/
def recover_with : EProg → (Val → Val) → EProg
  | .ret v, _ => .ret v
  | .crash, _ => .crash
  | .yieldStop e _, f => .ret (f e)

/-- `recover_with_either` / `_RecoverWithEither` of
`31_either_recover_with_either.py` as a tree transformation: steps are
forwarded to the decorated generator until it yields a `StopFromError`; at
that point the wrapper switches permanently to driving `recover(error)` (it
immediately performs that program's first step and forwards all later sends
to it), so from the switch on the wrapper behaves exactly as the recovery
program itself. -/
def recover_with_either : EProg → (Val → EProg) → EProg
  | .ret v, _ => .ret v
  | .crash, _ => .crash
  | .yieldStop e _, g => g e

/-- `run_either`: drive the program; a yielded `StopFromError` closes the
generator and is returned, a `StopIteration` yields the completion value. -/
def run_either : EProg → RunResult
  | .ret v => .completed v
  | .crash => .crashed
  | .yieldStop e _ => .halted e

end EitherM

namespace Logging

/-!
Embedding of `22_logging_with_combinators.py`: suspensions are `LogMessage`
and `Nop`, the send channel carries only `None`, so continuations take no
argument.
-/

/-- `Severity = Literal["error", "warning", "info"]`. -/
inductive Sev : Type where
  | error : Sev
  | warning : Sev
  | info : Sev

/-- `LoggingYield = LogMessage | Nop`. -/
inductive LYield : Type where
  | logMessage (sev : Sev) (msg : String) : LYield
  | nop : LYield

/-- A logging program: a generator yielding `LogMessage`/`Nop` requests and
resumed with `None`. -/
inductive LProg : Type where
  | ret (v : Val) : LProg
  | yieldL (y : LYield) (k : LProg) : LProg

/-- `muted` / `_MuteLogging`: each step steps the decorated generator; a
yielded `LogMessage` is replaced by `Nop()`, any other yield is returned
unchanged. -/
def muted : LProg → LProg
  | .ret v => .ret v
  | .yieldL y k => .yieldL (match y with | .logMessage _ _ => .nop | .nop => .nop) (muted k)

/-- The rewriting `_MuteLogging` applies to one yielded request: `LogMessage`
becomes `Nop`, anything else is untouched. -/
def muteYield : LYield → LYield
  | .logMessage _ _ => .nop
  | y => y

/-- The ordered sequence of suspension requests a logging program presents to
its driver (logging sends are always `None`, so the trace is a pure
observation of the program). -/
def suspTrace : LProg → List LYield
  | .ret _ => []
  | .yieldL y k => y :: suspTrace k

/-- `run_collecting`: drive the program feeding `None`, appending every
yielded `LogMessage` to an ordered list (other yields fall through the
`match` and are ignored); returns the completion value together with the
collected messages. -/
def run_collecting : LProg → Val × List (Sev × String)
  | .ret v => (v, [])
  | .yieldL (.logMessage s m) k =>
      let r := run_collecting k
      (r.1, (s, m) :: r.2)
  | .yieldL .nop k => run_collecting k

/-- `run_muted`: drive the program feeding `None` and discard every yield. -/
def run_muted : LProg → Val
  | .ret v => v
  | .yieldL _ k => run_muted k

end Logging

namespace St

/-!
Embedding of `70_state.py` and `71_state_fixed.py`: suspensions are
`GetState(state_type)` and `SetState(state)`, the send channel carries the
state or `None`.  The example state types `ContainerA`, `ContainerB` and
`ContainerAB(ContainerA, ContainerB)` become the three constructors of
`SVal`, and Python `isinstance` against the three classes becomes
`isInstanceOf` (a `ContainerAB` is an instance of all three).
-/

/-- The state values of the examples: `ContainerA(value_int)`,
`ContainerB(value_str)` and `ContainerAB` with both fields. -/
inductive SVal : Type where
  | ca (value_int : Int) : SVal
  | cb (value_str : String) : SVal
  | cab (value_str : String) (value_int : Int) : SVal

/-- The type tags a program can pass to `GetState` / `isinstance`. -/
inductive STag : Type where
  | tagA : STag
  | tagB : STag
  | tagAB : STag

/-- Python `isinstance(v, tag)` for the three container classes:
`ContainerAB` subclasses both `ContainerA` and `ContainerB`. -/
def isInstanceOf : SVal → STag → Bool
  | .ca _, .tagA => true
  | .cb _, .tagB => true
  | .cab _ _, _ => true
  | _, _ => false

/-- The class of a state value, used when a program reads back "the same
facet's tag" it has just written. -/
def tagOf : SVal → STag
  | .ca _ => .tagA
  | .cb _ => .tagB
  | .cab _ _ => .tagAB

/-- The `value_int` field owned by the `ContainerA` facet (a `ContainerB`
has no such field; the default `0` is never read through a guard that has
checked `isInstanceOf · .tagA`). -/
def getIntField : SVal → Int
  | .ca i => i
  | .cab _ i => i
  | .cb _ => 0

/-- The `value_str` field owned by the `ContainerB` facet. -/
def getStrField : SVal → String
  | .cb s => s
  | .cab s _ => s
  | .ca _ => ""

/-- A state program: a generator yielding `GetState`/`SetState` requests,
resumed with the state (`some`) or `None`. -/
inductive SProg (α : Type) : Type where
  | ret (a : α) : SProg α
  | crash : SProg α
  | yieldGet (tag : STag) (k : Option SVal → SProg α) : SProg α
  | yieldSet (v : SVal) (k : Option SVal → SProg α) : SProg α

/-- `set_state`: yield `SetState(state)`, then return `None`. -/
def set_state (s : SVal) : SProg Unit := .yieldSet s (fun _ => .ret ())

/-- `get_state`: yield `GetState(state_type)`, assert the reply is not
`None` (a `None` reply fails the assertion, i.e. raises), and return it. -/
def get_state (tag : STag) : SProg SVal :=
  .yieldGet tag (fun r =>
    match r with
    | some s => .ret s
    | none => .crash)

/-- Delegation (`yield from p`, then continue with the returned value). -/
def bind {α β : Type} : SProg α → (α → SProg β) → SProg β
  | .ret a, f => f a
  | .crash, _ => .crash
  | .yieldGet t k, f => .yieldGet t (fun s => bind (k s) f)
  | .yieldSet v k, f => .yieldSet v (fun s => bind (k s) f)

/-- `prog1` of the state examples: `set_state(ContainerA(1))`, then return
`1 + 2`. -/
def prog1 : SProg Int := bind (set_state (.ca 1)) (fun _ => .ret 3)

/-- `prog2` of the state examples: `set_state(ContainerB("hello"))`, then
return `7 + 8`. -/
def prog2 : SProg Int := bind (set_state (.cb "hello")) (fun _ => .ret 15)

/-- `prog3` of the state examples: delegate to `prog1`, then to `prog2`,
then read `get_state(ContainerA)` and return the value read. -/
def prog3 : SProg SVal :=
  bind prog1 (fun _ => bind prog2 (fun _ => bind (get_state .tagA) (fun ca => .ret ca)))

/-- The program of the composite-facet property: `set_state(ContainerA(a))`,
then `set_state(ContainerB(b))`, then `get_state(ContainerA)`. -/
def progSetAB (a : Int) (b : String) : SProg SVal :=
  bind (set_state (.ca a)) (fun _ => bind (set_state (.cb b)) (fun _ => get_state .tagA))

end St

namespace St70

/-- `run_state` of `70_state.py`: `GetState` is answered with the current
cell content (the requested tag is not consulted), `SetState` wholesale
replaces the cell and is answered with `None`; returns the completion value
together with the final state, or `none` when the program raises. -/
def run_state {α : Type} : St.SProg α → St.SVal → Option (α × St.SVal)
  | .ret a, s => some (a, s)
  | .crash, _ => none
  | .yieldGet _ k, s => run_state (k (some s)) s
  | .yieldSet v k, _ => run_state (k none) v

end St70

namespace St71

/-- The `update` methods of `71_state_fixed.py`, functionally: a
`ContainerA` absorbs `other.value_int` when `other` is a `ContainerA`
instance, a `ContainerB` absorbs `other.value_str` when `other` is a
`ContainerB` instance, and `ContainerAB.update` delegates to both facet
updates in turn. -/
def update (self other : St.SVal) : St.SVal :=
  match self with
  | .ca i => if St.isInstanceOf other .tagA then .ca (St.getIntField other) else .ca i
  | .cb s => if St.isInstanceOf other .tagB then .cb (St.getStrField other) else .cb s
  | .cab s i =>
      .cab (if St.isInstanceOf other .tagB then St.getStrField other else s)
        (if St.isInstanceOf other .tagA then St.getIntField other else i)

/-- `run_state` of `71_state_fixed.py`: like the simple interpreter, except
that `SetState(value)` merges `value` into the existing cell via
`internal_state.update(value)` instead of replacing it. -/
def run_state {α : Type} : St.SProg α → St.SVal → Option (α × St.SVal)
  | .ret a, s => some (a, s)
  | .crash, _ => none
  | .yieldGet _ k, s => run_state (k (some s)) s
  | .yieldSet v k, s => run_state (k none) (update s v)

end St71

/-!
Helper lemmas.
-/

/-- The sub-drive list of the blocking interpreter is the map of `run_io`
over the sub-programs. -/
theorem runListB_eq (ps : List Blocking.BProg) :
    Blocking.runList ps = ps.map Blocking.run_io := by
  induction ps with
  | nil => rfl
  | cons p ps ih => simp [Blocking.runList, ih]

/-- Unfolding of the blocking interpreter at a `Gather` suspension. -/
theorem run_ioB_gather (subs : List Blocking.BProg) (k : Val → Blocking.BProg) :
    Blocking.run_io (.yieldGather subs k) =
      (if (subs.map Blocking.run_io).any isCrashed then .crashed
       else
        match firstHalt (subs.map Blocking.run_io) with
        | some e => .halted e
        | none => Blocking.run_io (k (.vlist (completedValues (subs.map Blocking.run_io))))) := by
  rw [Blocking.run_io, runListB_eq]

/-- The sub-drive list of the asynchronous interpreter is the map of
`run_io` over the sub-programs. -/
theorem runListA_eq (ps : List Async.AProg) :
    Async.runList ps = ps.map Async.run_io := by
  induction ps with
  | nil => rfl
  | cons p ps ih => simp [Async.runList, ih]

/-- Unfolding of the asynchronous interpreter at a `Gather` suspension. -/
theorem run_ioA_gather (subs : List Async.AProg) (k : Async.ASend → Async.AProg) :
    Async.run_io (.yieldGather subs k) =
      (if (subs.map Async.run_io).any isCrashed then .crashed
       else
        match firstHalt (subs.map Async.run_io) with
        | some e => Async.run_io (k (.exit e))
        | none => Async.run_io (k (.val (.vlist (completedValues (subs.map Async.run_io)))))) := by
  rw [Async.run_io, runListA_eq]

/-- A result list in which every entry completed contains no halt. -/
theorem firstHalt_map_completed (vs : List Val) :
    firstHalt (vs.map RunResult.completed) = none := by
  induction vs with
  | nil => rfl
  | cons v vs ih => simp [firstHalt, ih]

/-- Extracting the completion values of an all-completed result list
recovers the values in order. -/
theorem completedValues_map_completed (vs : List Val) :
    completedValues (vs.map RunResult.completed) = vs := by
  induction vs with
  | nil => rfl
  | cons v vs ih => simp [completedValues, ih]

/-- An all-completed result list contains no crash. -/
theorem any_isCrashed_map_completed (vs : List Val) :
    (vs.map RunResult.completed).any isCrashed = false := by
  induction vs with
  | nil => rfl
  | cons v vs ih => simp [List.any, isCrashed, ih]

/-- The scan for the first `StopFromError` returns the halt of the smallest
index: if position `i` halted with `e` and no position before `i` halted,
the scan reports `e`. -/
theorem firstHalt_of_min_index (rs : List RunResult) (i : Nat) (e : Val)
    (hi : rs[i]? = some (.halted e))
    (hmin : ∀ j, j < i → ∀ e', rs[j]? ≠ some (.halted e')) :
    firstHalt rs = some e := by
  induction rs generalizing i with
  | nil => simp at hi
  | cons r rs ih =>
      cases i with
      | zero =>
          simp at hi
          subst hi
          rfl
      | succ n =>
          simp at hi
          cases r with
          | halted e' =>
              exfalso
              exact hmin 0 (Nat.succ_pos n) e' (by simp)
          | completed v =>
              show firstHalt rs = some e
              exact ih n hi
                (fun j hj e' hne => hmin (j + 1) (Nat.succ_lt_succ hj) e' (by simpa using hne))
          | crashed =>
              show firstHalt rs = some e
              exact ih n hi
                (fun j hj e' hne => hmin (j + 1) (Nat.succ_lt_succ hj) e' (by simpa using hne))

/-- Delegation is associative for `Either` programs: inlining `p` and then
`f` into `g` gives the same program tree as inlining `p` into the
composition of `f` and `g`. -/
theorem bindE_assoc (p : EitherM.EProg) (f g : Val → EitherM.EProg) :
    EitherM.bind (EitherM.bind p f) g = EitherM.bind p (fun v => EitherM.bind (f v) g) :=
  match p with
  | .ret v => rfl
  | .crash => rfl
  | .yieldStop e k => by
      simp only [EitherM.bind]
      congr 1
      funext s
      exact bindE_assoc (k s) f g

/-- Delegation is associative for asynchronous `IO` programs. -/
theorem bindA_assoc (p : Async.AProg) (f g : Val → Async.AProg) :
    Async.bind (Async.bind p f) g = Async.bind p (fun v => Async.bind (f v) g) :=
  match p with
  | .ret v => rfl
  | .crash => rfl
  | .yieldStop e k => by
      simp only [Async.bind]
      congr 1
      funext s
      exact bindA_assoc (k s) f g
  | .yieldSleep d k => by
      simp only [Async.bind]
      congr 1
      funext s
      exact bindA_assoc (k s) f g
  | .yieldGather subs k => by
      simp only [Async.bind]
      congr 1
      funext s
      exact bindA_assoc (k s) f g

/-!
Claim theorems.
-/

/-- Claim C1, counterexample: under the synchronous blocking interpreter of
`z0_io_basic_blocking.py`, a halting sub-program of a gather is NOT
surfaced at the parent's suspension point via an `ExitInPlace` reply; the
parent's driver returns the raw error, bypassing the `recover_with` wrapped
around the parent: driving `recover_with(join([halt("x")]), recover to 42)`
returns the raw `Halted "x"` instead of `Completed 42`. -/
theorem claim_C1_counterexample :
    Blocking.run_io (Blocking.recover_with
      (Blocking.join [Blocking.halt_with_error (.vstr "x")]) (fun _ => .vint 42))
      = .halted (.vstr "x") ∧
    Blocking.run_io (Blocking.recover_with
      (Blocking.join [Blocking.halt_with_error (.vstr "x")]) (fun _ => .vint 42))
      ≠ .completed (.vint 42) :=
  ⟨rfl, fun h => RunResult.noConfusion h⟩

/-- Claim C1, amended: under the asynchronous interpreter of
`41_io_basic_async.py`, the first-observed error of a gather's sub-programs
is sent back to the parent's suspension point as `ExitInPlace`, which the
`gather` basis operation converts into a `StopFromError` suspension, so a
`recover_with` wrapped around the parent sees a proper halt and completes
with the recovery value; under the synchronous blocking interpreter of
`z0_io_basic_blocking.py` the parent's driver instead returns the raw error
and the `recover_with` wrapped around the parent never triggers. -/
theorem claim_C1_amended (asubs : List Async.AProg) (f : Val → Val) (ea : Val)
    (bsubs : List Blocking.BProg) (g : Val → Val) (eb : Val)
    (hac : (asubs.map Async.run_io).any isCrashed = false)
    (hah : firstHalt (asubs.map Async.run_io) = some ea)
    (hbc : (bsubs.map Blocking.run_io).any isCrashed = false)
    (hbh : firstHalt (bsubs.map Blocking.run_io) = some eb) :
    Async.run_io (Async.recover_with (Async.gather asubs) f) = .completed (f ea) ∧
    Blocking.run_io (Blocking.recover_with (Blocking.join bsubs) g) = .halted eb := by
  constructor
  · rw [Async.gather, Async.recover_with, run_ioA_gather, hac, hah]
    rfl
  · rw [Blocking.join, Blocking.recover_with, run_ioB_gather, hbc, hbh]
    rfl

/-- Claim C1, amended, witness: `recover_with(gather([pure(1), halt("x")]),
recover to 7)` completes with `7` under the asynchronous interpreter, while
`recover_with(join([halt("x")]), recover to 7)` yields the raw
`Halted("x")` under the blocking interpreter. -/
theorem claim_C1_amended_witness :
    Async.run_io (Async.recover_with
      (Async.gather [Async.pure (.vint 1), Async.halt_with_error (.vstr "x")])
      (fun _ => .vint 7)) = .completed (.vint 7) ∧
    Blocking.run_io (Blocking.recover_with
      (Blocking.join [Blocking.halt_with_error (.vstr "x")])
      (fun _ => .vint 7)) = .halted (.vstr "x") :=
  claim_C1_amended _ _ (.vstr "x") _ _ (.vstr "x") rfl rfl rfl rfl

/-- Claim C2: when at least one sub-program of a gather halts (and no
sub-program raises), the run result is `Halted` carrying the
first-observed halt error — the scan returns it as soon as it is found, so
every later halt in the results list is discarded — under both the
synchronous blocking interpreter and the asynchronous interpreter. -/
theorem claim_C2 (bsubs : List Blocking.BProg) (asubs : List Async.AProg) (eb ea : Val)
    (hbc : (bsubs.map Blocking.run_io).any isCrashed = false)
    (hbh : firstHalt (bsubs.map Blocking.run_io) = some eb)
    (hac : (asubs.map Async.run_io).any isCrashed = false)
    (hah : firstHalt (asubs.map Async.run_io) = some ea) :
    Blocking.run_io (Blocking.join bsubs) = .halted eb ∧
    Async.run_io (Async.gather asubs) = .halted ea := by
  constructor
  · rw [Blocking.join, run_ioB_gather, hbc, hbh]
    rfl
  · rw [Async.gather, run_ioA_gather, hac, hah]
    rfl

/-- Claim C2, witness: `gather([pure(1), halt("x"), pure(3)])` terminates in
`Halted("x")` under both interpreters. -/
theorem claim_C2_witness :
    Blocking.run_io (Blocking.join
      [Blocking.pure (.vint 1), Blocking.halt_with_error (.vstr "x"), Blocking.pure (.vint 3)])
      = .halted (.vstr "x") ∧
    Async.run_io (Async.gather
      [Async.pure (.vint 1), Async.halt_with_error (.vstr "x"), Async.pure (.vint 3)])
      = .halted (.vstr "x") :=
  claim_C2 _ _ _ _ rfl rfl rfl rfl

/-- Claim C3: when every sub-program of a gather completes, the gather
completes with the list of completion values in original sub-program order
(the asynchronous interpreter collects results positionally via
`asyncio.gather`, so the order of the result list never depends on the
order in which the independent sub-drives finish), under both the
synchronous and the asynchronous interpreter. -/
theorem claim_C3 (bsubs : List Blocking.BProg) (bvs : List Val)
    (asubs : List Async.AProg) (avs : List Val)
    (hb : bsubs.map Blocking.run_io = bvs.map RunResult.completed)
    (ha : asubs.map Async.run_io = avs.map RunResult.completed) :
    Blocking.run_io (Blocking.join bsubs) = .completed (.vlist bvs) ∧
    Async.run_io (Async.gather asubs) = .completed (.vlist avs) := by
  constructor
  · rw [Blocking.join, run_ioB_gather, hb, any_isCrashed_map_completed,
      firstHalt_map_completed, completedValues_map_completed]
    rfl
  · rw [Async.gather, run_ioA_gather, ha, any_isCrashed_map_completed,
      firstHalt_map_completed, completedValues_map_completed]
    rfl

/-- Claim C3, witness: `gather([pure(1), pure(2), pure(3)])` yields
`Completed([1, 2, 3])` under both interpreters. -/
theorem claim_C3_witness :
    Blocking.run_io (Blocking.join
      [Blocking.pure (.vint 1), Blocking.pure (.vint 2), Blocking.pure (.vint 3)])
      = .completed (.vlist [.vint 1, .vint 2, .vint 3]) ∧
    Async.run_io (Async.gather
      [Async.pure (.vint 1), Async.pure (.vint 2), Async.pure (.vint 3)])
      = .completed (.vlist [.vint 1, .vint 2, .vint 3]) :=
  claim_C3 _ [.vint 1, .vint 2, .vint 3] _ [.vint 1, .vint 2, .vint 3] rfl rfl

/-- Claim C4: `recover_with(halt_with_error(e), f)` is the very same program
as `pure(f(e))` — it yields no suspension and completes with `f(e)`, so
`run_either` drives it to `Completed (f e)`; and `recover_with` forwards
every non-Halt suspension of the wrapped program unchanged (shown on the
asynchronous vocabulary, where `Sleep` and `Gather` suspensions exist)
while a yielded `StopFromError` always terminates the wrapper as a
completion with the recovered value. -/
theorem claim_C4 (e : Val) (f : Val → Val) (d : Nat) (k : Async.ASend → Async.AProg)
    (subs : List Async.AProg) (e2 : Val) :
    EitherM.recover_with (EitherM.halt_with_error e) f = EitherM.pure (f e) ∧
    EitherM.run_either (EitherM.recover_with (EitherM.halt_with_error e) f)
      = .completed (f e) ∧
    Async.recover_with (.yieldStop e2 k) f = .ret (f e2) ∧
    Async.recover_with (.yieldSleep d k) f
      = .yieldSleep d (fun s => Async.recover_with (k s) f) ∧
    Async.recover_with (.yieldGather subs k) f
      = .yieldGather subs (fun s => Async.recover_with (k s) f) :=
  ⟨rfl, rfl, rfl, rfl, rfl⟩

/-- Claim C5: `recover_with_either(halt_with_error(e), g)` is the very same
program tree as `g e`, hence observably identical to running `g(e)` alone —
same suspension trace and same terminal result under any driver; and when
the recovery program itself halts, that halt propagates normally to the
driver as a `Halted` result. -/
theorem claim_C5 (e : Val) (g : Val → EitherM.EProg) (e2 : Val) (k : Val → EitherM.EProg) :
    EitherM.recover_with_either (EitherM.halt_with_error e) g = g e ∧
    EitherM.run_either (EitherM.recover_with_either (EitherM.halt_with_error e)
      (fun _ => EitherM.EProg.yieldStop e2 k)) = .halted e2 :=
  ⟨rfl, rfl⟩

/-- Claim C8: delegation is associative and flattening-equivalent — for all
programs `a` and delegation continuations `f`, `g`, nesting the
delegations one way produces exactly the same program tree as flattening
them the other way, hence the same suspension trace and the same final
result under every driver, with every inner suspension forwarded verbatim
and no extra suspensions introduced; shown both for the `Either` programs
of `30_either_basic.py` and for the asynchronous `IO` programs. -/
theorem claim_C8 (a : EitherM.EProg) (f g : Val → EitherM.EProg)
    (a2 : Async.AProg) (f2 g2 : Val → Async.AProg) :
    EitherM.bind (EitherM.bind a f) g = EitherM.bind a (fun v => EitherM.bind (f v) g) ∧
    Async.bind (Async.bind a2 f2) g2 = Async.bind a2 (fun v => Async.bind (f2 v) g2) :=
  ⟨bindE_assoc a f g, bindA_assoc a2 f2 g2⟩

/-- Claim C9: muting replaces each `Log` suspension with `Nop` and passes
every other suspension through untouched (stated on the suspension trace),
the muted program completes with the same final value as the original, and
`run_collecting` of the muted program returns that value together with an
empty list of collected log messages. -/
theorem claim_C9 (p : Logging.LProg) :
    Logging.suspTrace (Logging.muted p) = (Logging.suspTrace p).map Logging.muteYield ∧
    (Logging.run_collecting (Logging.muted p)).1 = (Logging.run_collecting p).1 ∧
    (Logging.run_collecting (Logging.muted p)).2 = [] := by
  induction p with
  | ret v => exact ⟨rfl, rfl, rfl⟩
  | yieldL y k ih =>
      refine ⟨?_, ?_, ?_⟩
      · cases y <;> simp [Logging.muted, Logging.suspTrace, Logging.muteYield, ih.1]
      · cases y <;> simp [Logging.muted, Logging.run_collecting, ih.2.1]
      · cases y <;> simp [Logging.muted, Logging.run_collecting, ih.2.2]

/-- Claim C6, counterexample: under the wholesale-replacing state
interpreter of `70_state.py`, driving `prog3` (which sets `ContainerA(1)`,
then `ContainerB("hello")`, then reads `get_state(ContainerA)`) from the
initial cell `ContainerAB("no", 0)` returns `ContainerB("hello")`, which is
not an instance of the requested tag `ContainerA`: the value returned by
`get_state(tag)` is not typed to `tag`. -/
theorem claim_C6_counterexample :
    St70.run_state St.prog3 (St.SVal.cab "no" 0)
      = some (St.SVal.cb "hello", St.SVal.cb "hello") ∧
    St.isInstanceOf (St.SVal.cb "hello") St.STag.tagA = false :=
  ⟨rfl, rfl⟩

/-- Claim C6, amended: under the state-threading interpreter of
`70_state.py`, `set_state(s)` followed by `get_state` of `s`'s own tag
returns exactly the just-set value `s`, and `get_state(tag)` returns the
cell's current content — but the requested tag is not consulted, so the
content need not be an instance of the requested tag type. -/
theorem claim_C6_amended (s s0 : St.SVal) (tag : St.STag) :
    St70.run_state (St.bind (St.set_state s) (fun _ => St.get_state (St.tagOf s))) s0
      = some (s, s) ∧
    St70.run_state (St.get_state tag) s0 = some (s0, s0) :=
  ⟨rfl, rfl⟩

/-- Claim C7: under the merging state interpreter of `71_state_fixed.py`
with the composite cell `ContainerAB` (whose `update` delegates facet by
facet), setting facet A to `a`, then facet B to `b`, then reading
`get_state(ContainerA)` returns the cell with facet A's field equal to the
just-set `a`, unaffected by the facet-B write; the returned cell is an
instance of the requested `ContainerA` tag, and the source `prog3` driven
from `ContainerAB("no", 0)` yields `ContainerAB("hello", 1)`. -/
theorem claim_C7 (a : Int) (b s : String) (i : Int) :
    St71.run_state (St.progSetAB a b) (St.SVal.cab s i)
      = some (.cab b a, .cab b a) ∧
    St.getIntField (St.SVal.cab b a) = a ∧
    St.isInstanceOf (St.SVal.cab b a) St.STag.tagA = true ∧
    St71.run_state St.prog3 (St.SVal.cab "no" 0)
      = some (.cab "hello" 1, .cab "hello" 1) :=
  ⟨rfl, rfl, rfl, rfl⟩

/-- Claim C10: under both the synchronous and the asynchronous interpreter,
the outcome of a gather is a function (`gatherOutcome`) of the list of
terminal results of ALL its sub-programs — every sub-program is driven to
its terminal state before the outcome is determined, with no fail-fast
cancellation of siblings — and when several sub-programs halt, the reported
error is deterministically that of the halting sub-program with the
smallest index in the original list (the asynchronous interpreter collects
results positionally via `asyncio.gather`, so actual finishing order never
enters). -/
theorem claim_C10 (bsubs : List Blocking.BProg) (asubs : List Async.AProg)
    (rs : List RunResult) (i : Nat) (e : Val)
    (hc : rs.any isCrashed = false)
    (hi : rs[i]? = some (.halted e))
    (hmin : ∀ j, j < i → ∀ e', rs[j]? ≠ some (.halted e')) :
    Blocking.run_io (Blocking.join bsubs) = gatherOutcome (bsubs.map Blocking.run_io) ∧
    Async.run_io (Async.gather asubs) = gatherOutcome (asubs.map Async.run_io) ∧
    gatherOutcome rs = .halted e := by
  refine ⟨?_, ?_, ?_⟩
  · rw [Blocking.join, run_ioB_gather, gatherOutcome]
    cases hcr : (bsubs.map Blocking.run_io).any isCrashed
    · simp only [Bool.false_eq_true, if_false]
      cases hfh : firstHalt (bsubs.map Blocking.run_io) <;> rfl
    · rfl
  · rw [Async.gather, run_ioA_gather, gatherOutcome]
    cases hcr : (asubs.map Async.run_io).any isCrashed
    · simp only [Bool.false_eq_true, if_false]
      cases hfh : firstHalt (asubs.map Async.run_io) <;> rfl
    · rfl
  · rw [gatherOutcome, hc, firstHalt_of_min_index rs i e hi hmin]
    rfl

/-- Claim C10, witness: with sub-results `[Completed 1, Halted "x",
Halted "y"]` (two halting sub-programs), the gather outcome is
deterministically the halt of the smallest index, `Halted "x"`. -/
theorem claim_C10_witness :
    ([RunResult.completed (.vint 1), RunResult.halted (.vstr "x"),
        RunResult.halted (.vstr "y")].any isCrashed = false) ∧
    gatherOutcome [RunResult.completed (.vint 1), RunResult.halted (.vstr "x"),
        RunResult.halted (.vstr "y")] = .halted (.vstr "x") := by
  refine ⟨rfl, ?_⟩
  exact (claim_C10 [] []
    [RunResult.completed (.vint 1), RunResult.halted (.vstr "x"), RunResult.halted (.vstr "y")]
    1 (.vstr "x") rfl rfl
    (by
      intro j hj e' h
      interval_cases j
      simp at h)).2.2
